import Mathlib

/-!
Shallow embedding of the GraphRAG hybrid-retrieval core
(`src/graph/graph_rag.py`) and proofs about its specification.

Modelling conventions:
* Python floats are modelled as exact rationals (`ℚ`); the fusion formula of
  the source is a pure arithmetic expression, so its algebraic shape is
  preserved exactly.
* Python dicts keyed by entity id are modelled as insertion-ordered
  association lists (`List (String × MergedHit)`): assigning to an existing
  key replaces the value in place, assigning to a fresh key appends at the
  end — exactly the ordering semantics of CPython dicts.
* `sorted(..., key=..., reverse=True)` is a stable descending sort; it is
  modelled with `List.insertionSort` over the relation
  `byCombinedDesc a b ↔ b.combined_score ≤ a.combined_score`, which is the
  stable sort over the same preorder (equal keys keep their original order).
* The external collaborators (Neo4j, the embedding model, the Ollama HTTP
  endpoint) are passed in as oracle functions; the Cypher traversal query of
  `get_related_entries` is additionally given an executable semantics over an
  explicit edge list (see `cypher_path_rows`), because several claims are
  about the behaviour of that query.
-/

namespace GraphRAG

/-- Record returned by `semantic_search` (lines 45–56 of graph_rag.py):
entity fields joined with the owning knowledge base, plus the vector
similarity score. -/
structure SemHit where
  id : String
  title : String
  category : String
  content : String
  knowledge_base_name : String
  similarity : ℚ
deriving DecidableEq

/-- Record returned by `keyword_search` (line 75): entity fields plus the
full-text relevance score. -/
structure KwHit where
  id : String
  title : String
  category : String
  content : String
  knowledge_base_name : String
  score : ℚ
deriving DecidableEq

/-- Record returned by `get_related_entries` (lines 83–94): entity fields
plus the traversal path length `distance`. -/
structure RelHit where
  id : String
  title : String
  category : String
  content : String
  knowledge_base_name : String
  distance : Int
deriving DecidableEq

/-- Value stored in the `all_results` dict of `hybrid_search` before the
`combined_score` pass (lines 113–145): entity fields plus the three channel
scores. -/
structure MergedHit where
  id : String
  title : String
  category : String
  content : String
  knowledge_base_name : String
  semantic_score : ℚ
  keyword_score : ℚ
  related_score : ℚ
deriving DecidableEq

/-- Value after the `combined_score` pass (lines 147–151). -/
structure ScoredHit where
  id : String
  title : String
  category : String
  content : String
  knowledge_base_name : String
  semantic_score : ℚ
  keyword_score : ℚ
  related_score : ℚ
  combined_score : ℚ
deriving DecidableEq

/-- Membership test `result['id'] in all_results` on the association list. -/
def dict_contains (m : List (String × MergedHit)) (k : String) : Bool :=
  m.any (fun p => p.1 == k)

/-- Assignment `all_results[k] = v`: replace in place when the key exists,
append otherwise (CPython dict ordering semantics). -/
def dict_insert (m : List (String × MergedHit)) (k : String) (v : MergedHit) :
    List (String × MergedHit) :=
  if dict_contains m k then m.map (fun p => if p.1 = k then (k, v) else p)
  else m ++ [(k, v)]

/-- In-place field update `all_results[k]['…'] = …` of the value stored at
key `k`. -/
def dict_update (m : List (String × MergedHit)) (k : String)
    (f : MergedHit → MergedHit) : List (String × MergedHit) :=
  m.map (fun p => if p.1 = k then (p.1, f p.2) else p)

/-- Dict value built in the semantic loop (lines 115–121):
`{**result, 'semantic_score': result['similarity'], 'keyword_score': 0,
'related_score': 0}`. -/
def sem_entry (result : SemHit) : MergedHit :=
  { id := result.id
    title := result.title
    category := result.category
    content := result.content
    knowledge_base_name := result.knowledge_base_name
    semantic_score := result.similarity
    keyword_score := 0
    related_score := 0 }

/-- Dict value built in the `else` branch of the keyword loop
(lines 127–132). -/
def kw_entry (result : KwHit) : MergedHit :=
  { id := result.id
    title := result.title
    category := result.category
    content := result.content
    knowledge_base_name := result.knowledge_base_name
    semantic_score := 0
    keyword_score := result.score
    related_score := 0 }

/-- Distance-to-score transform of the relational channel (line 136):
`1 / result['distance'] if result['distance'] > 0 else 0`. -/
def related_score_of_distance (distance : Int) : ℚ :=
  if distance > 0 then 1 / (distance : ℚ) else 0

/-- Dict value built in the `else` branch of the related loop
(lines 140–145). -/
def rel_entry (result : RelHit) : MergedHit :=
  { id := result.id
    title := result.title
    category := result.category
    content := result.content
    knowledge_base_name := result.knowledge_base_name
    semantic_score := 0
    keyword_score := 0
    related_score := related_score_of_distance result.distance }

/-- One iteration of the semantic loop (lines 115–121). -/
def sem_step (all_results : List (String × MergedHit)) (result : SemHit) :
    List (String × MergedHit) :=
  dict_insert all_results result.id (sem_entry result)

/-- One iteration of the keyword loop (lines 123–132). -/
def kw_step (all_results : List (String × MergedHit)) (result : KwHit) :
    List (String × MergedHit) :=
  if dict_contains all_results result.id then
    dict_update all_results result.id (fun h => { h with keyword_score := result.score })
  else all_results ++ [(result.id, kw_entry result)]

/-- One iteration of the related loop (lines 134–145). -/
def rel_step (all_results : List (String × MergedHit)) (result : RelHit) :
    List (String × MergedHit) :=
  if dict_contains all_results result.id then
    dict_update all_results result.id
      (fun h => { h with related_score := related_score_of_distance result.distance })
  else all_results ++ [(result.id, rel_entry result)]

/-- The three accumulation loops of `hybrid_search` (lines 113–145), producing
the insertion-ordered `all_results` dict. -/
def merge_channels (semantic_results : List SemHit) (keyword_results : List KwHit)
    (related_entries_results : List RelHit) : List (String × MergedHit) :=
  related_entries_results.foldl rel_step
    (keyword_results.foldl kw_step
      (semantic_results.foldl sem_step []))

/-- The `combined_score` pass over one dict value (lines 147–151). -/
def with_combined (h : MergedHit) : ScoredHit :=
  { id := h.id
    title := h.title
    category := h.category
    content := h.content
    knowledge_base_name := h.knowledge_base_name
    semantic_score := h.semantic_score
    keyword_score := h.keyword_score
    related_score := h.related_score
    combined_score :=
      h.semantic_score * 0.5 + h.keyword_score * 0.4 + h.related_score * 0.1 }

/-- The `all_results.values()` sequence after the `combined_score` pass, in
dict insertion order. -/
def fused_values (semantic_results : List SemHit) (keyword_results : List KwHit)
    (related_entries_results : List RelHit) : List ScoredHit :=
  (merge_channels semantic_results keyword_results related_entries_results).map
    (fun p => with_combined p.2)

/-- Comparison used by `sorted(..., key=lambda x: x['combined_score'],
reverse=True)`: descending combined score. -/
def byCombinedDesc (a b : ScoredHit) : Prop :=
  b.combined_score ≤ a.combined_score

instance : DecidableRel byCombinedDesc :=
  fun a b => inferInstanceAs (Decidable (b.combined_score ≤ a.combined_score))

instance : IsTotal ScoredHit byCombinedDesc :=
  ⟨fun a b => le_total b.combined_score a.combined_score⟩

instance : IsTrans ScoredHit byCombinedDesc :=
  ⟨fun _ _ _ hab hbc => le_trans hbc hab⟩

/-- The `sorted_results` list of `hybrid_search` (lines 153–155): stable
descending sort by combined score. -/
def sorted_results (semantic_results : List SemHit) (keyword_results : List KwHit)
    (related_entries_results : List RelHit) : List ScoredHit :=
  (fused_values semantic_results keyword_results related_entries_results).insertionSort
    byCombinedDesc

/-- Fusion core of `hybrid_search` (lines 113–157) as a function of the three
channel outputs: merge, score, sort, truncate to `top_k`. -/
def hybrid_fuse (semantic_results : List SemHit) (keyword_results : List KwHit)
    (related_entries_results : List RelHit) (top_k : Nat) : List ScoredHit :=
  (sorted_results semantic_results keyword_results related_entries_results).take top_k

/-- Sampling options of the Ollama payload (lines 206–211). -/
structure OllamaOptions where
  temperature : ℚ
  num_predict : Nat
  top_k : Nat
  top_p : ℚ
deriving DecidableEq

/-- The HTTP request issued by `generate_answer_ollama` (lines 202–219): the
JSON payload together with the target URL and the `timeout` argument of
`requests.post`. -/
structure OllamaRequest where
  url : String
  model : String
  prompt : String
  stream : Bool
  options : OllamaOptions
  timeout : Nat
deriving DecidableEq

/-- The `requests.exceptions.RequestException` hierarchy as far as the code
distinguishes it: a timeout expiry, a connection failure, or the `HTTPError`
raised by `response.raise_for_status()`; each carries its `str(e)` text. -/
inductive RequestException where
  | timeout (msg : String)
  | connection (msg : String)
  | http_status (msg : String)
deriving DecidableEq

/-- The `str(e)` rendering of a caught `RequestException`. -/
def RequestException.message : RequestException → String
  | .timeout msg => msg
  | .connection msg => msg
  | .http_status msg => msg

/-- A successful `requests.post` result as the code consumes it: the body of
`result.get('response', ...)` when the JSON has a `response` key. A 4xx/5xx
status is modelled on the exception side (`RequestException.http_status`),
since `raise_for_status()` turns it into a caught exception. -/
structure OllamaHttpResponse where
  response_field : Option String
deriving DecidableEq

/-- External collaborators of the `GraphRAG` class, passed as oracles: the
two Neo4j search queries (as functions of query text and `top_k`), the
traversal query (as a function of seed entity id and depth), and the HTTP
`requests.post` call. -/
structure RAGOracles where
  semantic_search : String → Nat → List SemHit
  keyword_search : String → Nat → List KwHit
  get_related_entries : String → Nat → List RelHit
  post : OllamaRequest → Except RequestException OllamaHttpResponse

/-- Orchestration of `hybrid_search` (lines 96–157), instrumented with the
list of `get_related_entries` invocations (seed id, depth) it performs.
`related_entries_results` starts empty and is filled only when
`semantic_results` is non-empty, seeded by `semantic_results[0]['id']` at
depth 1 (lines 105–108). -/
def hybrid_search_run (o : RAGOracles) (query : String) (top_k : Nat) :
    List ScoredHit × List (String × Nat) :=
  let semantic_results := o.semantic_search query 20
  let keyword_results := o.keyword_search query 5
  match semantic_results with
  | [] => (hybrid_fuse semantic_results keyword_results [] top_k, [])
  | top :: rest =>
      let related_entries_results := o.get_related_entries top.id 1
      (hybrid_fuse (top :: rest) keyword_results related_entries_results top_k,
       [(top.id, 1)])

/-- The value returned by `hybrid_search` (line 157). -/
def hybrid_search (o : RAGOracles) (query : String) (top_k : Nat) : List ScoredHit :=
  (hybrid_search_run o query top_k).1

/-- One rendered block of `build_context` (lines 164–168), for 1-based source
index `i`. -/
def format_part (i : Nat) (entry : ScoredHit) : String :=
  "[Source " ++ toString i ++ "] Knowledge Base: " ++ entry.knowledge_base_name ++ "\n" ++
  "Entry: " ++ entry.title ++ " (Category: " ++ entry.category ++ ")\n" ++
  "Content: " ++ entry.content ++ "\n\n"

/-- The loop of `build_context` (lines 163–174): accumulate whole blocks,
breaking before the first block that would push `current_length` past
`max_length`. Returns the list of accepted blocks. -/
def build_context_go (entries : List ScoredHit) (i : Nat) (current_length : Nat)
    (max_length : Nat) : List String :=
  match entries with
  | [] => []
  | entry :: rest =>
      let part := format_part i entry
      if current_length + part.length > max_length then []
      else part :: build_context_go rest (i + 1) (current_length + part.length) max_length

/-- Context Assembler `build_context` (lines 159–176): joined accepted
blocks, starting at source index 1 and length 0. -/
def build_context (entries : List ScoredHit) (max_length : Nat) : String :=
  String.join (build_context_go entries 1 0 max_length)

/-- System prompt of `generate_answer_ollama` (lines 179–193). -/
def ollama_system_prompt : String :=
  "You are an AI assistant providing information about animals.\n" ++
  "            Your role is to provide accurate, helpful information based on the provided context.\n\n" ++
  "            Guidelines:\n" ++
  "            1. Answer questions based ONLY on the provided context.\n" ++
  "            2. Cite specific entries and categories when providing information.\n" ++
  "            3. If the context doesn't contain enough information, clearly state that.\n" ++
  "            4. Use clear, simple language.\n" ++
  "            5. Be precise and avoid speculation.\n\n" ++
  "            Format your responses clearly with:\n" ++
  "            - Direct answer to the question\n" ++
  "            - Relevant entry/category references\n" ++
  "            - Plain language explanation\n" ++
  "            - Any important caveats or limitations"

/-- User prompt of `generate_answer_ollama` (lines 195–200). -/
def ollama_user_prompt (query context : String) : String :=
  "Question: " ++ query ++ "\n\n" ++
  "            Knowledge Base Context:\n" ++
  "            " ++ context ++ "\n\n" ++
  "            Please provide a comprehensive answer based on the above knowledge base context."

/-- The request assembled by `generate_answer_ollama` (lines 202–219):
payload fields, target URL `ollama_url + "/api/generate"`, and the explicit
`timeout=120`. -/
def ollama_payload (ollama_url model_name query context : String) : OllamaRequest :=
  { url := ollama_url ++ "/api/generate"
    model := model_name
    prompt := ollama_system_prompt ++ "\n\n" ++ ollama_user_prompt query context
    stream := false
    options := { temperature := 0.3, num_predict := 1000, top_k := 40, top_p := 0.9 }
    timeout := 120 }

/-- Generation Service call `generate_answer_ollama` (lines 178–226): any
`RequestException` from `requests.post` / `raise_for_status()` is caught and
converted to the inline `"Error communicating with Ollama: …"` string;
otherwise the `response` JSON field is returned, with the
`'No response generated'` default. -/
def generate_answer_ollama (post : OllamaRequest → Except RequestException OllamaHttpResponse)
    (ollama_url model_name query context : String) : String :=
  match post (ollama_payload ollama_url model_name query context) with
  | .error e => "Error communicating with Ollama: " ++ e.message
  | .ok result => result.response_field.getD "No response generated"

/-- Source citation records built by `query` (lines 245–253). -/
structure SourceRecord where
  knowledge_base : String
  entry_title : String
  category : String
  relevance_score : ℚ
deriving DecidableEq

/-- Return value of `query` (lines 234–259); `context` is `none` exactly when
the returned dict has no `context` key (the not-found branch). -/
structure QueryResult where
  answer : String
  sources : List SourceRecord
  context : Option String
deriving DecidableEq

/-- Canned answer of the empty-result branch of `query` (line 236). -/
def not_found_answer : String :=
  "I couldn't find relevant information in the knowledge base for your question. Please rephrase or ask about specific animal topics."

/-- Citation record for one fused hit (lines 246–251). -/
def source_record (entry : ScoredHit) : SourceRecord :=
  { knowledge_base := entry.knowledge_base_name
    entry_title := entry.title
    category := entry.category
    relevance_score := entry.combined_score }

/-- Orchestrator `query` (lines 228–259), instrumented with the lists of
Context Assembler invocations (entries, max_length) and Generation Service
invocations (question, context) it performs. `hybrid_search` is called with
`top_k=5`; when it returns nothing the canned answer is returned and neither
`build_context` nor `generate_answer_ollama` runs; otherwise the context uses
the default `max_length = 4000`. -/
def query_run (o : RAGOracles) (ollama_url model_name : String) (user_question : String) :
    QueryResult × List (List ScoredHit × Nat) × List (String × String) :=
  let relevant_entries := hybrid_search o user_question 5
  match relevant_entries with
  | [] => ({ answer := not_found_answer, sources := [], context := none }, [], [])
  | e :: es =>
      let context := build_context (e :: es) 4000
      let answer := generate_answer_ollama o.post ollama_url model_name user_question context
      ({ answer := answer
         sources := (e :: es).map source_record
         context := some context },
       [((e :: es), 4000)], [(user_question, context)])

/-- A Neo4j graph as far as the traversal query of `get_related_entries`
(lines 79–91) reads it: the directed edges of the three relationship types
`SIMILAR_TO | RELATES_TO | RELATED_TO` (the type itself is never inspected,
so the three lists are collapsed into one), and the per-node entry fields.
Every node is an `Entry` owned by one `KnowledgeBase` (`CONTAINS` join), so
the non-id columns of a returned row are functions of the node id. -/
structure GraphDB where
  edges : List (String × String)
  node_title : String → String
  node_category : String → String
  node_content : String → String
  node_kb : String → String

/-- Endpoints of the variable-length pattern
`(e {id: seed})-[:SIMILAR_TO|RELATES_TO|RELATED_TO*1..depth]->(related)`:
one `(node, path length)` pair per matched path. Cypher matches every
directed walk of 1 to `depth` steps that does not reuse a relationship
(`used` holds the edge indices already on the walk), and yields a row for
each such path — not only for the shortest one per node. -/
def cypher_path_rows (edges : List (String × String)) (used : List Nat)
    (cur : String) (len : Nat) (depth : Nat) : List (String × Nat) :=
  match depth with
  | 0 => []
  | d + 1 =>
      (edges.enum.filter (fun je => !(used.contains je.1) && (je.2.1 == cur))).flatMap
        (fun je => (je.2.2, len + 1) :: cypher_path_rows edges (je.1 :: used) je.2.2 (len + 1) d)

/-- One returned row of the traversal query: the `related` node's entry
columns joined with its knowledge base, and `length(path) as distance`. -/
def rel_row (g : GraphDB) (p : String × Nat) : RelHit :=
  { id := p.1
    title := g.node_title p.1
    category := g.node_category p.1
    content := g.node_content p.1
    knowledge_base_name := g.node_kb p.1
    distance := (p.2 : Int) }

/-- Comparison realising `ORDER BY distance` on rows. -/
def byDistanceAsc (a b : RelHit) : Prop :=
  a.distance ≤ b.distance

instance : DecidableRel byDistanceAsc :=
  fun a b => inferInstanceAs (Decidable (a.distance ≤ b.distance))

instance : IsTotal RelHit byDistanceAsc :=
  ⟨fun a b => le_total a.distance b.distance⟩

instance : IsTrans RelHit byDistanceAsc :=
  ⟨fun _ _ _ hab hbc => le_trans hab hbc⟩

/-- Executable semantics of the whole Cypher query of `get_related_entries`
(lines 79–91): materialise one row per matched path, apply `RETURN DISTINCT`
(duplicate whole rows removed; `List.dedup` — which occurrence survives is
irrelevant once rows are sorted), then `ORDER BY distance` and `LIMIT 5`. -/
def get_related_entries (g : GraphDB) (entry_id : String) (depth : Nat) : List RelHit :=
  let rows := ((cypher_path_rows g.edges [] entry_id 0 depth).map (rel_row g)).dedup
  (rows.insertionSort byDistanceAsc).take 5

/-! ### Helper notions and lemmas about the fusion dict -/

/-- Keys of the `all_results` dict, in insertion order. -/
def dict_keys (m : List (String × MergedHit)) : List String :=
  m.map (fun p => p.1)

/-- Effect of one dict assignment on the key sequence: an existing key keeps
its position, a fresh key is appended. -/
def ins_key (ks : List String) (k : String) : List String :=
  if k ∈ ks then ks else ks ++ [k]

/-- Effect of a loop of dict assignments on the key sequence. -/
def ins_keys (ks : List String) (new : List String) : List String :=
  new.foldl ins_key ks

theorem dict_contains_iff (m : List (String × MergedHit)) (k : String) :
    dict_contains m k = true ↔ k ∈ dict_keys m := by
  simp only [dict_contains, List.any_eq_true, beq_iff_eq, dict_keys, List.mem_map]

theorem keys_dict_update (m : List (String × MergedHit)) (k : String)
    (f : MergedHit → MergedHit) : dict_keys (dict_update m k f) = dict_keys m := by
  simp only [dict_keys, dict_update, List.map_map]
  apply List.map_congr_left
  intro p _
  by_cases h : p.1 = k <;> simp [h]

theorem keys_dict_insert (m : List (String × MergedHit)) (k : String) (v : MergedHit) :
    dict_keys (dict_insert m k v) = ins_key (dict_keys m) k := by
  unfold dict_insert ins_key
  by_cases h : k ∈ dict_keys m
  · rw [if_pos ((dict_contains_iff m k).mpr h), if_pos h]
    simp only [dict_keys, List.map_map]
    apply List.map_congr_left
    intro p _
    by_cases hp : p.1 = k <;> simp [hp]
  · rw [if_neg (fun hc => h ((dict_contains_iff m k).mp hc)), if_neg h]
    simp [dict_keys]

theorem keys_sem_step (m : List (String × MergedHit)) (x : SemHit) :
    dict_keys (sem_step m x) = ins_key (dict_keys m) x.id :=
  keys_dict_insert m x.id (sem_entry x)

theorem keys_kw_step (m : List (String × MergedHit)) (x : KwHit) :
    dict_keys (kw_step m x) = ins_key (dict_keys m) x.id := by
  unfold kw_step ins_key
  by_cases h : x.id ∈ dict_keys m
  · rw [if_pos ((dict_contains_iff m x.id).mpr h), if_pos h, keys_dict_update]
  · rw [if_neg (fun hc => h ((dict_contains_iff m x.id).mp hc)), if_neg h]
    simp [dict_keys]

theorem keys_rel_step (m : List (String × MergedHit)) (x : RelHit) :
    dict_keys (rel_step m x) = ins_key (dict_keys m) x.id := by
  unfold rel_step ins_key
  by_cases h : x.id ∈ dict_keys m
  · rw [if_pos ((dict_contains_iff m x.id).mpr h), if_pos h, keys_dict_update]
  · rw [if_neg (fun hc => h ((dict_contains_iff m x.id).mp hc)), if_neg h]
    simp [dict_keys]

theorem keys_foldl {α : Type} (step : List (String × MergedHit) → α → List (String × MergedHit))
    (f : α → String)
    (hstep : ∀ m x, dict_keys (step m x) = ins_key (dict_keys m) (f x)) :
    ∀ (l : List α) (m : List (String × MergedHit)),
      dict_keys (l.foldl step m) = ins_keys (dict_keys m) (l.map f)
  | [], _ => rfl
  | x :: l, m => by
      rw [List.foldl_cons, keys_foldl step f hstep l (step m x), hstep m x]
      rfl

theorem keys_merge_channels (s : List SemHit) (k : List KwHit) (r : List RelHit) :
    dict_keys (merge_channels s k r) =
      ins_keys (ins_keys (ins_keys [] (s.map SemHit.id)) (k.map KwHit.id))
        (r.map RelHit.id) := by
  unfold merge_channels
  rw [keys_foldl rel_step RelHit.id keys_rel_step,
      keys_foldl kw_step KwHit.id keys_kw_step,
      keys_foldl sem_step SemHit.id keys_sem_step]
  rfl

theorem ins_key_nodup {ks : List String} {k : String} (h : ks.Nodup) :
    (ins_key ks k).Nodup := by
  unfold ins_key
  split
  · exact h
  · simp_all [List.nodup_append]

theorem ins_keys_nodup : ∀ (l : List String) {ks : List String},
    ks.Nodup → (ins_keys ks l).Nodup
  | [], _, h => h
  | k :: l, _, h => ins_keys_nodup l (ins_key_nodup h)

theorem keys_merge_channels_nodup (s : List SemHit) (k : List KwHit) (r : List RelHit) :
    (dict_keys (merge_channels s k r)).Nodup := by
  rw [keys_merge_channels]
  exact ins_keys_nodup _ (ins_keys_nodup _ (ins_keys_nodup _ List.nodup_nil))

/-- Every stored value's `id` field equals its key. -/
def ids_match (m : List (String × MergedHit)) : Prop :=
  ∀ p ∈ m, p.2.id = p.1

theorem foldl_preserves {α β : Type} {P : β → Prop} {step : β → α → β} :
    ∀ (l : List α), (∀ m x, x ∈ l → P m → P (step m x)) → ∀ m, P m → P (l.foldl step m)
  | [], _, _, hm => hm
  | x :: l, h, m, hm =>
      foldl_preserves l (fun m' y hy => h m' y (List.mem_cons_of_mem x hy)) (step m x)
        (h m x (List.mem_cons_self x l) hm)

theorem mem_dict_insert {p : String × MergedHit} {m : List (String × MergedHit)}
    {k : String} {v : MergedHit} (hp : p ∈ dict_insert m k v) : p ∈ m ∨ p = (k, v) := by
  unfold dict_insert at hp
  split at hp
  · obtain ⟨q, hq, he⟩ := List.mem_map.mp hp
    by_cases h : q.1 = k
    · right
      rw [← he, if_pos h]
    · left
      rw [← he, if_neg h]
      exact hq
  · rcases List.mem_append.mp hp with h | h
    · exact Or.inl h
    · exact Or.inr (by simpa using h)

theorem mem_dict_update {p : String × MergedHit} {m : List (String × MergedHit)}
    {k : String} {f : MergedHit → MergedHit} (hp : p ∈ dict_update m k f) :
    ∃ q ∈ m, p.1 = q.1 ∧ ((q.1 ≠ k ∧ p.2 = q.2) ∨ (q.1 = k ∧ p.2 = f q.2)) := by
  unfold dict_update at hp
  obtain ⟨q, hq, he⟩ := List.mem_map.mp hp
  by_cases h : q.1 = k
  · rw [if_pos h] at he
    exact ⟨q, hq, by rw [← he], Or.inr ⟨h, by rw [← he]⟩⟩
  · rw [if_neg h] at he
    exact ⟨q, hq, by rw [← he], Or.inl ⟨h, by rw [← he]⟩⟩

theorem mem_sem_step {p : String × MergedHit} {m : List (String × MergedHit)} {x : SemHit}
    (hp : p ∈ sem_step m x) : p ∈ m ∨ p = (x.id, sem_entry x) :=
  mem_dict_insert hp

theorem mem_kw_step {p : String × MergedHit} {m : List (String × MergedHit)} {x : KwHit}
    (hp : p ∈ kw_step m x) :
    (∃ q ∈ m, p.1 = q.1 ∧
        ((q.1 ≠ x.id ∧ p.2 = q.2) ∨ (q.1 = x.id ∧ p.2 = { q.2 with keyword_score := x.score }))) ∨
      p = (x.id, kw_entry x) := by
  unfold kw_step at hp
  split at hp
  · exact Or.inl (mem_dict_update hp)
  · rcases List.mem_append.mp hp with h | h
    · exact Or.inl ⟨p, h, rfl, Or.inl (by
        constructor
        · intro he
          rename_i hc
          exact hc ((dict_contains_iff m x.id).mpr (by
            rw [← he]
            exact List.mem_map.mpr ⟨p, h, rfl⟩))
        · rfl)⟩
    · exact Or.inr (by simpa using h)

theorem mem_rel_step {p : String × MergedHit} {m : List (String × MergedHit)} {x : RelHit}
    (hp : p ∈ rel_step m x) :
    (∃ q ∈ m, p.1 = q.1 ∧
        ((q.1 ≠ x.id ∧ p.2 = q.2) ∨
          (q.1 = x.id ∧ p.2 = { q.2 with related_score := related_score_of_distance x.distance }))) ∨
      p = (x.id, rel_entry x) := by
  unfold rel_step at hp
  split at hp
  · exact Or.inl (mem_dict_update hp)
  · rcases List.mem_append.mp hp with h | h
    · exact Or.inl ⟨p, h, rfl, Or.inl (by
        constructor
        · intro he
          rename_i hc
          exact hc ((dict_contains_iff m x.id).mpr (by
            rw [← he]
            exact List.mem_map.mpr ⟨p, h, rfl⟩))
        · rfl)⟩
    · exact Or.inr (by simpa using h)

theorem ids_match_sem_step {m : List (String × MergedHit)} {x : SemHit}
    (h : ids_match m) : ids_match (sem_step m x) := by
  intro p hp
  rcases mem_sem_step hp with hm | rfl
  · exact h p hm
  · rfl

theorem ids_match_kw_step {m : List (String × MergedHit)} {x : KwHit}
    (h : ids_match m) : ids_match (kw_step m x) := by
  intro p hp
  rcases mem_kw_step hp with ⟨q, hq, hpq, hcase⟩ | rfl
  · rcases hcase with ⟨_, he⟩ | ⟨_, he⟩ <;>
      · rw [hpq, he]
        exact h q hq
  · rfl

theorem ids_match_rel_step {m : List (String × MergedHit)} {x : RelHit}
    (h : ids_match m) : ids_match (rel_step m x) := by
  intro p hp
  rcases mem_rel_step hp with ⟨q, hq, hpq, hcase⟩ | rfl
  · rcases hcase with ⟨_, he⟩ | ⟨_, he⟩ <;>
      · rw [hpq, he]
        exact h q hq
  · rfl

theorem ids_match_merge_channels (s : List SemHit) (k : List KwHit) (r : List RelHit) :
    ids_match (merge_channels s k r) := by
  unfold merge_channels
  apply foldl_preserves (P := ids_match) r (fun m x _ => ids_match_rel_step)
  apply foldl_preserves (P := ids_match) k (fun m x _ => ids_match_kw_step)
  apply foldl_preserves (P := ids_match) s (fun m x _ => ids_match_sem_step)
  intro p hp
  cases hp

/-- Channel-absence invariant: entities whose id was not produced by the
semantic channel carry the zero default in `semantic_score`. -/
def sem_zero (S : List String) (m : List (String × MergedHit)) : Prop :=
  ∀ p ∈ m, p.1 ∉ S → p.2.semantic_score = 0

/-- Channel-absence invariant for `keyword_score`. -/
def kw_zero (K : List String) (m : List (String × MergedHit)) : Prop :=
  ∀ p ∈ m, p.1 ∉ K → p.2.keyword_score = 0

/-- Channel-absence invariant for `related_score`. -/
def rel_zero (R : List String) (m : List (String × MergedHit)) : Prop :=
  ∀ p ∈ m, p.1 ∉ R → p.2.related_score = 0

theorem sem_zero_sem_step {S : List String} {m : List (String × MergedHit)} {x : SemHit}
    (hx : x.id ∈ S) (h : sem_zero S m) : sem_zero S (sem_step m x) := by
  intro p hp hS
  rcases mem_sem_step hp with hm | rfl
  · exact h p hm hS
  · exact absurd hx hS

theorem sem_zero_kw_step {S : List String} {m : List (String × MergedHit)} {x : KwHit}
    (h : sem_zero S m) : sem_zero S (kw_step m x) := by
  intro p hp hS
  rcases mem_kw_step hp with ⟨q, hq, hpq, hcase⟩ | rfl
  · rcases hcase with ⟨_, he⟩ | ⟨_, he⟩ <;>
      · rw [he]
        exact h q hq (by rw [← hpq]; exact hS)
  · rfl

theorem sem_zero_rel_step {S : List String} {m : List (String × MergedHit)} {x : RelHit}
    (h : sem_zero S m) : sem_zero S (rel_step m x) := by
  intro p hp hS
  rcases mem_rel_step hp with ⟨q, hq, hpq, hcase⟩ | rfl
  · rcases hcase with ⟨_, he⟩ | ⟨_, he⟩ <;>
      · rw [he]
        exact h q hq (by rw [← hpq]; exact hS)
  · rfl

theorem kw_zero_sem_step {K : List String} {m : List (String × MergedHit)} {x : SemHit}
    (h : kw_zero K m) : kw_zero K (sem_step m x) := by
  intro p hp hK
  rcases mem_sem_step hp with hm | rfl
  · exact h p hm hK
  · rfl

theorem kw_zero_kw_step {K : List String} {m : List (String × MergedHit)} {x : KwHit}
    (hx : x.id ∈ K) (h : kw_zero K m) : kw_zero K (kw_step m x) := by
  intro p hp hK
  rcases mem_kw_step hp with ⟨q, hq, hpq, hcase⟩ | rfl
  · rcases hcase with ⟨_, he⟩ | ⟨hqk, _⟩
    · rw [he]
      exact h q hq (by rw [← hpq]; exact hK)
    · refine absurd hx ?_
      rw [← hqk, ← hpq]
      exact hK
  · exact absurd hx hK

theorem kw_zero_rel_step {K : List String} {m : List (String × MergedHit)} {x : RelHit}
    (h : kw_zero K m) : kw_zero K (rel_step m x) := by
  intro p hp hK
  rcases mem_rel_step hp with ⟨q, hq, hpq, hcase⟩ | rfl
  · rcases hcase with ⟨_, he⟩ | ⟨_, he⟩ <;>
      · rw [he]
        exact h q hq (by rw [← hpq]; exact hK)
  · rfl

theorem rel_zero_sem_step {R : List String} {m : List (String × MergedHit)} {x : SemHit}
    (h : rel_zero R m) : rel_zero R (sem_step m x) := by
  intro p hp hR
  rcases mem_sem_step hp with hm | rfl
  · exact h p hm hR
  · rfl

theorem rel_zero_kw_step {R : List String} {m : List (String × MergedHit)} {x : KwHit}
    (h : rel_zero R m) : rel_zero R (kw_step m x) := by
  intro p hp hR
  rcases mem_kw_step hp with ⟨q, hq, hpq, hcase⟩ | rfl
  · rcases hcase with ⟨_, he⟩ | ⟨_, he⟩ <;>
      · rw [he]
        exact h q hq (by rw [← hpq]; exact hR)
  · rfl

theorem rel_zero_rel_step {R : List String} {m : List (String × MergedHit)} {x : RelHit}
    (hx : x.id ∈ R) (h : rel_zero R m) : rel_zero R (rel_step m x) := by
  intro p hp hR
  rcases mem_rel_step hp with ⟨q, hq, hpq, hcase⟩ | rfl
  · rcases hcase with ⟨_, he⟩ | ⟨hqk, _⟩
    · rw [he]
      exact h q hq (by rw [← hpq]; exact hR)
    · refine absurd hx ?_
      rw [← hqk, ← hpq]
      exact hR
  · exact absurd hx hR

theorem merge_channels_zero_defaults (s : List SemHit) (k : List KwHit) (r : List RelHit) :
    sem_zero (s.map SemHit.id) (merge_channels s k r) ∧
      kw_zero (k.map KwHit.id) (merge_channels s k r) ∧
        rel_zero (r.map RelHit.id) (merge_channels s k r) := by
  unfold merge_channels
  refine ⟨?_, ?_, ?_⟩
  · apply foldl_preserves (P := sem_zero (s.map SemHit.id)) r
      (fun m x _ => sem_zero_rel_step)
    apply foldl_preserves (P := sem_zero (s.map SemHit.id)) k
      (fun m x _ => sem_zero_kw_step)
    apply foldl_preserves (P := sem_zero (s.map SemHit.id)) s
      (fun m x hx => sem_zero_sem_step (List.mem_map.mpr ⟨x, hx, rfl⟩))
    intro p hp
    cases hp
  · apply foldl_preserves (P := kw_zero (k.map KwHit.id)) r
      (fun m x _ => kw_zero_rel_step)
    apply foldl_preserves (P := kw_zero (k.map KwHit.id)) k
      (fun m x hx => kw_zero_kw_step (List.mem_map.mpr ⟨x, hx, rfl⟩))
    apply foldl_preserves (P := kw_zero (k.map KwHit.id)) s
      (fun m x _ => kw_zero_sem_step)
    intro p hp
    cases hp
  · apply foldl_preserves (P := rel_zero (r.map RelHit.id)) r
      (fun m x hx => rel_zero_rel_step (List.mem_map.mpr ⟨x, hx, rfl⟩))
    apply foldl_preserves (P := rel_zero (r.map RelHit.id)) k
      (fun m x _ => rel_zero_kw_step)
    apply foldl_preserves (P := rel_zero (r.map RelHit.id)) s
      (fun m x _ => rel_zero_sem_step)
    intro p hp
    cases hp

theorem mem_hybrid_fuse {hit : ScoredHit} {s : List SemHit} {k : List KwHit}
    {r : List RelHit} {top_k : Nat} (h : hit ∈ hybrid_fuse s k r top_k) :
    hit ∈ fused_values s k r := by
  unfold hybrid_fuse at h
  have h1 : hit ∈ sorted_results s k r := (List.take_sublist _ _).subset h
  unfold sorted_results at h1
  exact (List.perm_insertionSort byCombinedDesc _).mem_iff.mp h1

/-! ### Claims about the fusion engine -/

/-- Every run of `hybrid_search` is one application of the fusion core to its
channel outputs, with the relational channel empty when the semantic channel
returned nothing. -/
theorem hybrid_search_eq (o : RAGOracles) (query : String) (top_k : Nat) :
    hybrid_search o query top_k =
      hybrid_fuse (o.semantic_search query 20) (o.keyword_search query 5)
        (match o.semantic_search query 20 with
          | [] => []
          | top :: _ => o.get_related_entries top.id 1) top_k := by
  cases hE : o.semantic_search query 20 <;>
    simp [hybrid_search, hybrid_search_run, hE]

theorem hybrid_fuse_hit_spec
    (s : List SemHit) (k : List KwHit) (r : List RelHit) (top_k : Nat)
    (hit : ScoredHit) (h : hit ∈ hybrid_fuse s k r top_k) :
    hit.combined_score =
        0.5 * hit.semantic_score + 0.4 * hit.keyword_score + 0.1 * hit.related_score ∧
      (hit.id ∉ s.map SemHit.id → hit.semantic_score = 0) ∧
      (hit.id ∉ k.map KwHit.id → hit.keyword_score = 0) ∧
      (hit.id ∉ r.map RelHit.id → hit.related_score = 0) := by
  have hm := mem_hybrid_fuse h
  unfold fused_values at hm
  obtain ⟨p, hp, he⟩ := List.mem_map.mp hm
  obtain ⟨hs, hk, hr⟩ := merge_channels_zero_defaults s k r
  have hid := ids_match_merge_channels s k r p hp
  subst he
  refine ⟨by simp only [with_combined]; ring, ?_, ?_, ?_⟩
  · intro hnot
    refine hs p hp ?_
    rw [← hid]
    simpa [with_combined] using hnot
  · intro hnot
    refine hk p hp ?_
    rw [← hid]
    simpa [with_combined] using hnot
  · intro hnot
    refine hr p hp ?_
    rw [← hid]
    simpa [with_combined] using hnot

/-- C1: for every hit in the fused result — of the fusion core on any channel
outputs, and of `hybrid_search` on any oracles — the combined score equals
exactly `0.5 * semantic + 0.4 * keyword + 0.1 * related`, and a channel that
did not surface the entity contributes its zero default for that channel. -/
theorem claim_C1_combined_score_formula
    (o : RAGOracles) (query : String)
    (s : List SemHit) (k : List KwHit) (r : List RelHit) (top_k : Nat) :
    (∀ hit ∈ hybrid_fuse s k r top_k,
        hit.combined_score =
            0.5 * hit.semantic_score + 0.4 * hit.keyword_score + 0.1 * hit.related_score ∧
          (hit.id ∉ s.map SemHit.id → hit.semantic_score = 0) ∧
          (hit.id ∉ k.map KwHit.id → hit.keyword_score = 0) ∧
          (hit.id ∉ r.map RelHit.id → hit.related_score = 0)) ∧
      (∀ hit ∈ hybrid_search o query top_k,
          hit.combined_score =
            0.5 * hit.semantic_score + 0.4 * hit.keyword_score + 0.1 * hit.related_score) := by
  constructor
  · exact fun hit h => hybrid_fuse_hit_spec s k r top_k hit h
  · rw [hybrid_search_eq]
    exact fun hit h => (hybrid_fuse_hit_spec _ _ _ top_k hit h).1

/-- Witness for C1 at a concrete input: one semantic hit, no keyword or
related hits. -/
theorem claim_C1_combined_score_formula_witness :
    (⟨"lion", "Lion", "Mammal", "Lions hunt in groups.", "Animals",
        0.82, 0, 0, 0.82 * 0.5 + 0 * 0.4 + 0 * 0.1⟩ : ScoredHit) ∈
        hybrid_fuse [⟨"lion", "Lion", "Mammal", "Lions hunt in groups.", "Animals", 0.82⟩]
          [] [] 10 ∧
      (⟨"lion", "Lion", "Mammal", "Lions hunt in groups.", "Animals",
          0.82, 0, 0, 0.82 * 0.5 + 0 * 0.4 + 0 * 0.1⟩ : ScoredHit).combined_score =
        0.5 * (0.82 : ℚ) + 0.4 * 0 + 0.1 * 0 := by
  have hmem :
      (⟨"lion", "Lion", "Mammal", "Lions hunt in groups.", "Animals",
          0.82, 0, 0, 0.82 * 0.5 + 0 * 0.4 + 0 * 0.1⟩ : ScoredHit) ∈
        hybrid_fuse [⟨"lion", "Lion", "Mammal", "Lions hunt in groups.", "Animals", 0.82⟩]
          [] [] 10 :=
    List.mem_singleton.mpr rfl
  exact ⟨hmem,
    ((claim_C1_combined_score_formula
        ⟨fun _ _ => [], fun _ _ => [], fun _ _ => [],
          fun _ => Except.error (RequestException.connection "down")⟩ "q"
        [⟨"lion", "Lion", "Mammal", "Lions hunt in groups.", "Animals", 0.82⟩]
        [] [] 10).1 _ hmem).1⟩

theorem hybrid_fuse_length_sorted
    (s : List SemHit) (k : List KwHit) (r : List RelHit) (top_k : Nat) :
    (hybrid_fuse s k r top_k).length ≤ top_k ∧
      (hybrid_fuse s k r top_k).Pairwise
        (fun a b => b.combined_score ≤ a.combined_score) := by
  constructor
  · exact List.length_take_le top_k _
  · have hs : (sorted_results s k r).Pairwise byCombinedDesc :=
      List.sorted_insertionSort byCombinedDesc (fused_values s k r)
    exact hs.sublist (List.take_sublist top_k _)

/-- C2: for every `top_k` and every triple of channel outputs — and hence for
every run of `hybrid_search` — the fused list has length at most `top_k` and
its combined scores are non-increasing across consecutive positions. -/
theorem claim_C2_fusion_length_and_order
    (o : RAGOracles) (query : String)
    (s : List SemHit) (k : List KwHit) (r : List RelHit) (top_k : Nat) :
    ((hybrid_fuse s k r top_k).length ≤ top_k ∧
        (hybrid_fuse s k r top_k).Pairwise
          (fun a b => b.combined_score ≤ a.combined_score)) ∧
      ((hybrid_search o query top_k).length ≤ top_k ∧
        (hybrid_search o query top_k).Pairwise
          (fun a b => b.combined_score ≤ a.combined_score)) := by
  refine ⟨hybrid_fuse_length_sorted s k r top_k, ?_⟩
  rw [hybrid_search_eq]
  exact hybrid_fuse_length_sorted _ _ _ top_k

/-- C3: the relational distance-to-score transform returns `1/distance` for
every positive distance (giving `1.0` at distance 1 and `0.5` at distance 2),
returns `0` at distance 0, and the divisor is non-zero whenever a division
happens. -/
theorem claim_C3_related_score_transform :
    (∀ d : Int, 0 < d →
        related_score_of_distance d = 1 / (d : ℚ) ∧ (d : ℚ) ≠ 0) ∧
      related_score_of_distance 1 = 1 ∧
      related_score_of_distance 2 = 1 / 2 ∧
      related_score_of_distance 0 = 0 := by
  refine ⟨?_, ?_, ?_, ?_⟩
  · intro d hd
    refine ⟨if_pos hd, ?_⟩
    exact_mod_cast hd.ne'
  · norm_num [related_score_of_distance]
  · norm_num [related_score_of_distance]
  · simp [related_score_of_distance]

/-- Witness for C3 at the concrete distance 2. -/
theorem claim_C3_related_score_transform_witness :
    0 < (2 : Int) ∧
      (related_score_of_distance 2 = 1 / ((2 : Int) : ℚ) ∧ ((2 : Int) : ℚ) ≠ 0) :=
  ⟨by decide, claim_C3_related_score_transform.1 2 (by decide)⟩

theorem hybrid_fuse_ids_nodup
    (s : List SemHit) (k : List KwHit) (r : List RelHit) (top_k : Nat) :
    ((hybrid_fuse s k r top_k).map (fun h => h.id)).Nodup := by
  have hkeys : (dict_keys (merge_channels s k r)).Nodup := keys_merge_channels_nodup s k r
  have hfv : (fused_values s k r).map (fun h => h.id) = dict_keys (merge_channels s k r) := by
    unfold fused_values dict_keys
    rw [List.map_map]
    apply List.map_congr_left
    intro p hp
    exact ids_match_merge_channels s k r p hp
  have hsorted : ((sorted_results s k r).map (fun h => h.id)).Nodup := by
    have hperm :=
      (List.perm_insertionSort byCombinedDesc (fused_values s k r)).map (fun h => h.id)
    exact hperm.nodup_iff.mpr (by rw [hfv]; exact hkeys)
  have htake : (hybrid_fuse s k r top_k).map (fun h => h.id) =
      ((sorted_results s k r).map (fun h => h.id)).take top_k := by
    unfold hybrid_fuse
    rw [List.map_take]
  rw [htake]
  exact hsorted.sublist (List.take_sublist top_k _)

/-- C4: within one fusion pass — of the fusion core on any channel outputs,
and hence of any `hybrid_search` run — each entity identifier occurs in at
most one `ScoredHit` of the returned list: the id sequence of the output has
no duplicates. -/
theorem claim_C4_unique_entity_ids
    (o : RAGOracles) (query : String)
    (s : List SemHit) (k : List KwHit) (r : List RelHit) (top_k : Nat) :
    ((hybrid_fuse s k r top_k).map (fun h => h.id)).Nodup ∧
      ((hybrid_search o query top_k).map (fun h => h.id)).Nodup := by
  refine ⟨hybrid_fuse_ids_nodup s k r top_k, ?_⟩
  rw [hybrid_search_eq]
  exact hybrid_fuse_ids_nodup _ _ _ top_k

/-- C10: fusion and ranking are deterministic — identical channel outputs
give identical ranked lists — and the final sort is stable, so hits with
equal combined scores keep the map-insertion order of the merge, whose key
sequence is the semantic hits in channel order, then keyword-only hits, then
related-only hits. -/
theorem claim_C10_deterministic_stable_fusion
    (s s' : List SemHit) (k k' : List KwHit) (r r' : List RelHit) (t t' : Nat) :
    (s = s' → k = k' → r = r' → t = t' →
        hybrid_fuse s k r t = hybrid_fuse s' k' r' t') ∧
      (∀ a b : ScoredHit, b.combined_score ≤ a.combined_score →
          [a, b].Sublist (fused_values s k r) →
            [a, b].Sublist (sorted_results s k r)) ∧
      dict_keys (merge_channels s k r) =
        ins_keys (ins_keys (ins_keys [] (s.map SemHit.id)) (k.map KwHit.id))
          (r.map RelHit.id) := by
  refine ⟨?_, ?_, keys_merge_channels s k r⟩
  · intro h1 h2 h3 h4
    rw [h1, h2, h3, h4]
  · intro a b hle hsub
    exact List.pair_sublist_insertionSort (r := byCombinedDesc) hle hsub

/-- Semantic input used by the C10 witness. -/
def c10_sem_a : SemHit := ⟨"a", "A", "Cat", "ca", "KB", 0.5⟩

/-- Semantic input used by the C10 witness. -/
def c10_sem_b : SemHit := ⟨"b", "B", "Cat", "cb", "KB", 0.5⟩

/-- Fused hit corresponding to `c10_sem_a`. -/
def c10_hit_a : ScoredHit := ⟨"a", "A", "Cat", "ca", "KB", 0.5, 0, 0, 0.5 * 0.5 + 0 * 0.4 + 0 * 0.1⟩

/-- Fused hit corresponding to `c10_sem_b`. -/
def c10_hit_b : ScoredHit := ⟨"b", "B", "Cat", "cb", "KB", 0.5, 0, 0, 0.5 * 0.5 + 0 * 0.4 + 0 * 0.1⟩

/-- Witness for C10 on two equal-scored semantic hits: the ranked list keeps
their channel order. -/
theorem claim_C10_deterministic_stable_fusion_witness :
    hybrid_fuse [c10_sem_a, c10_sem_b] [] [] 10 = hybrid_fuse [c10_sem_a, c10_sem_b] [] [] 10 ∧
      [c10_hit_a, c10_hit_b].Sublist (sorted_results [c10_sem_a, c10_sem_b] [] []) := by
  have h := claim_C10_deterministic_stable_fusion
    [c10_sem_a, c10_sem_b] [c10_sem_a, c10_sem_b] [] [] [] [] 10 10
  refine ⟨h.1 rfl rfl rfl rfl, ?_⟩
  exact h.2.1 c10_hit_a c10_hit_b (le_refl c10_hit_a.combined_score) (List.Sublist.refl _)

/-! ### Claims about the orchestration -/

/-- C5: in every run of `hybrid_search` the Relational Expander is invoked at
most once; it runs exactly when the Semantic Retriever returned at least one
hit, seeded by the id of the highest-ranked semantic hit at depth 1, and is
skipped — contributing an empty relational channel — when the Semantic
Retriever returns no hits. -/
theorem claim_C5_relational_expander_invocation
    (o : RAGOracles) (query : String) (top_k : Nat) :
    (hybrid_search_run o query top_k).2.length ≤ 1 ∧
      (∀ top rest, o.semantic_search query 20 = top :: rest →
          (hybrid_search_run o query top_k).2 = [(top.id, 1)] ∧
            hybrid_search o query top_k =
              hybrid_fuse (top :: rest) (o.keyword_search query 5)
                (o.get_related_entries top.id 1) top_k) ∧
      (o.semantic_search query 20 = [] →
          (hybrid_search_run o query top_k).2 = [] ∧
            hybrid_search o query top_k =
              hybrid_fuse [] (o.keyword_search query 5) [] top_k) := by
  cases hE : o.semantic_search query 20 with
  | nil =>
      refine ⟨?_, ?_, ?_⟩
      · simp [hybrid_search_run, hE]
      · intro top rest htr
        cases htr
      · intro _
        constructor <;> simp [hybrid_search, hybrid_search_run, hE]
  | cons top rest =>
      refine ⟨?_, ?_, ?_⟩
      · simp [hybrid_search_run, hE]
      · intro top' rest' htr
        cases htr
        constructor <;> simp [hybrid_search, hybrid_search_run, hE]
      · intro h
        cases h

/-- Witness for C5: one semantic hit causes exactly one expander call,
seeded by that hit's id at depth 1. -/
theorem claim_C5_relational_expander_invocation_witness :
    (hybrid_search_run
        ⟨fun _ _ => [⟨"a", "A", "Cat", "ca", "KB", 0.5⟩], fun _ _ => [], fun _ _ => [],
          fun _ => Except.error (RequestException.connection "down")⟩
        "q" 5).2 = [("a", 1)] :=
  ((claim_C5_relational_expander_invocation
      ⟨fun _ _ => [⟨"a", "A", "Cat", "ca", "KB", 0.5⟩], fun _ _ => [], fun _ _ => [],
        fun _ => Except.error (RequestException.connection "down")⟩
      "q" 5).2.1 ⟨"a", "A", "Cat", "ca", "KB", 0.5⟩ [] rfl).1

/-- C7: whenever the fused result list is empty — in particular whenever the
retrieval channels all return no hits — `query` returns the canned not-found
answer with an empty sources list and no context key, and neither the Context
Assembler nor the Generation Service is invoked. -/
theorem claim_C7_empty_result_short_circuit
    (o : RAGOracles) (ollama_url model_name user_question : String) :
    (hybrid_search o user_question 5 = [] →
        query_run o ollama_url model_name user_question =
          ({ answer := not_found_answer, sources := [], context := none }, [], [])) ∧
      (o.semantic_search user_question 20 = [] → o.keyword_search user_question 5 = [] →
          hybrid_search o user_question 5 = []) := by
  constructor
  · intro h
    simp [query_run, h]
  · intro h1 h2
    simp [hybrid_search, hybrid_search_run, h1, h2, hybrid_fuse, sorted_results,
      fused_values, merge_channels]

/-- Witness for C7: with all channels empty, `query` short-circuits to the
canned answer and performs no downstream calls. -/
theorem claim_C7_empty_result_short_circuit_witness :
    query_run
        ⟨fun _ _ => [], fun _ _ => [], fun _ _ => [],
          fun _ => Except.error (RequestException.connection "down")⟩
        "http://localhost:11434" "Llama3.1:8b" "What do lions eat?" =
      ({ answer := not_found_answer, sources := [], context := none }, [], []) :=
  (claim_C7_empty_result_short_circuit
      ⟨fun _ _ => [], fun _ _ => [], fun _ _ => [],
        fun _ => Except.error (RequestException.connection "down")⟩
      "http://localhost:11434" "Llama3.1:8b" "What do lions eat?").1 rfl

/-- C9: every failure of the Generation Service call — the 120-second
timeout expiry included — is caught at the call and converted into an inline
plain-text error answer instead of propagating, and the rest of the query
result (sources and context) is still produced. The issued request carries
`timeout = 120`. -/
theorem claim_C9_generation_failure_inline_error
    (o : RAGOracles) (ollama_url model_name user_question : String)
    (e : RequestException) (hpost : ∀ req, o.post req = Except.error e) :
    (∀ query context : String,
        (ollama_payload ollama_url model_name query context).timeout = 120) ∧
      (∀ query context : String,
          generate_answer_ollama o.post ollama_url model_name query context =
            "Error communicating with Ollama: " ++ e.message) ∧
      (∀ en ens, hybrid_search o user_question 5 = en :: ens →
          (query_run o ollama_url model_name user_question).1.answer =
              "Error communicating with Ollama: " ++ e.message ∧
            (query_run o ollama_url model_name user_question).1.sources =
              (en :: ens).map source_record ∧
            (query_run o ollama_url model_name user_question).1.context =
              some (build_context (en :: ens) 4000)) := by
  have hgen : ∀ query context : String,
      generate_answer_ollama o.post ollama_url model_name query context =
        "Error communicating with Ollama: " ++ e.message := by
    intro query context
    unfold generate_answer_ollama
    rw [hpost]
  refine ⟨fun _ _ => rfl, hgen, ?_⟩
  intro en ens hE
  simp [query_run, hE, hgen]

/-- Witness for C9: a semantic hit plus a Generation Service whose every call
raises a timeout; the answer degrades to the inline error text while sources
and context are produced. -/
theorem claim_C9_generation_failure_inline_error_witness :
    (query_run
          ⟨fun _ _ => [⟨"lion", "Lion", "Mammal", "meat", "Animals", 0.82⟩],
            fun _ _ => [], fun _ _ => [],
            fun _ => Except.error (RequestException.timeout "Read timed out.")⟩
          "http://localhost:11434" "Llama3.1:8b" "What do lions eat?").1.answer =
        "Error communicating with Ollama: " ++
          (RequestException.timeout "Read timed out.").message ∧
      (query_run
          ⟨fun _ _ => [⟨"lion", "Lion", "Mammal", "meat", "Animals", 0.82⟩],
            fun _ _ => [], fun _ _ => [],
            fun _ => Except.error (RequestException.timeout "Read timed out.")⟩
          "http://localhost:11434" "Llama3.1:8b" "What do lions eat?").1.sources =
        [(⟨"lion", "Lion", "Mammal", "meat", "Animals",
            0.82, 0, 0, 0.82 * 0.5 + 0 * 0.4 + 0 * 0.1⟩ : ScoredHit)].map source_record ∧
      (query_run
          ⟨fun _ _ => [⟨"lion", "Lion", "Mammal", "meat", "Animals", 0.82⟩],
            fun _ _ => [], fun _ _ => [],
            fun _ => Except.error (RequestException.timeout "Read timed out.")⟩
          "http://localhost:11434" "Llama3.1:8b" "What do lions eat?").1.context =
        some (build_context
          [(⟨"lion", "Lion", "Mammal", "meat", "Animals",
              0.82, 0, 0, 0.82 * 0.5 + 0 * 0.4 + 0 * 0.1⟩ : ScoredHit)] 4000) :=
  (claim_C9_generation_failure_inline_error
      ⟨fun _ _ => [⟨"lion", "Lion", "Mammal", "meat", "Animals", 0.82⟩],
        fun _ _ => [], fun _ _ => [],
        fun _ => Except.error (RequestException.timeout "Read timed out.")⟩
      "http://localhost:11434" "Llama3.1:8b" "What do lions eat?"
      (RequestException.timeout "Read timed out.") (fun _ => rfl)).2.2
    (⟨"lion", "Lion", "Mammal", "meat", "Animals",
        0.82, 0, 0, 0.82 * 0.5 + 0 * 0.4 + 0 * 0.1⟩ : ScoredHit) [] rfl

/-! ### Claims about the Context Assembler -/

/-- Rendered blocks of the ranked list, with 1-based source indices as in
`enumerate(entries, 1)`. -/
def blocks_from (i : Nat) : List ScoredHit → List String
  | [] => []
  | e :: rest => format_part i e :: blocks_from (i + 1) rest

/-- All rendered blocks of `build_context`, in ranked order. -/
def context_blocks (entries : List ScoredHit) : List String :=
  blocks_from 1 entries

/-- Number of leading blocks accepted before the loop breaks. -/
def fit_count (parts : List String) (current_length max_length : Nat) : Nat :=
  match parts with
  | [] => 0
  | part :: rest =>
      if current_length + part.length > max_length then 0
      else fit_count rest (current_length + part.length) max_length + 1

/-- Total character count of a list of blocks. -/
def len_sum (parts : List String) : Nat :=
  (parts.map String.length).sum

theorem build_context_go_eq (max_length : Nat) :
    ∀ (entries : List ScoredHit) (i current_length : Nat),
      build_context_go entries i current_length max_length =
        (blocks_from i entries).take
          (fit_count (blocks_from i entries) current_length max_length)
  | [], _, _ => rfl
  | e :: rest, i, cur => by
      simp only [build_context_go, blocks_from, fit_count]
      split
      · rfl
      · rw [build_context_go_eq max_length rest (i + 1) (cur + (format_part i e).length)]
        rfl

theorem fit_count_sum_le (max_length : Nat) :
    ∀ (parts : List String) (cur : Nat), cur ≤ max_length →
      cur + len_sum (parts.take (fit_count parts cur max_length)) ≤ max_length
  | [], cur, h => by simpa [fit_count, len_sum]
  | p :: rest, cur, h => by
      simp only [fit_count]
      split
      · simpa [len_sum]
      · rename_i hng
        have hcur : cur + p.length ≤ max_length := by omega
        have ih := fit_count_sum_le max_length rest (cur + p.length) hcur
        rw [List.take_succ_cons]
        simp only [len_sum, List.map_cons, List.sum_cons] at ih ⊢
        omega

theorem fit_count_stop (max_length : Nat) :
    ∀ (parts : List String) (cur : Nat),
      fit_count parts cur max_length = parts.length ∨
        max_length < cur + len_sum (parts.take (fit_count parts cur max_length + 1))
  | [], _ => Or.inl rfl
  | p :: rest, cur => by
      simp only [fit_count]
      split
      · rename_i hgt
        right
        simp only [Nat.zero_add, List.take_succ_cons, List.take_zero, len_sum,
          List.map_cons, List.map_nil, List.sum_cons, List.sum_nil]
        omega
      · rename_i hng
        rcases fit_count_stop max_length rest (cur + p.length) with h | h
        · left
          simp [h]
        · right
          rw [List.take_succ_cons]
          simp only [len_sum, List.map_cons, List.sum_cons] at h ⊢
          omega

theorem length_foldl_append :
    ∀ (parts : List String) (s : String),
      (parts.foldl (fun r t => r ++ t) s).length = s.length + len_sum parts
  | [], s => by simp [len_sum]
  | p :: rest, s => by
      rw [List.foldl_cons, length_foldl_append rest (s ++ p)]
      simp only [len_sum, List.map_cons, List.sum_cons, String.length_append]
      omega

theorem length_join (parts : List String) :
    (String.join parts).length = len_sum parts := by
  have := length_foldl_append parts ""
  simpa [String.join] using this

/-- C6: `build_context` appends whole rendered blocks in ranked order and
stops before the first block that would push the accumulated length past
`max_length`; no block is partially included, the returned text never exceeds
`max_length` (the claim assumes each block is at most `max_length` long; the
bound in fact holds even without that assumption), and the empty list yields
the empty string. -/
theorem claim_C6_build_context_whole_blocks
    (entries : List ScoredHit) (max_length : Nat)
    (hblocks : ∀ b ∈ context_blocks entries, b.length ≤ max_length) :
    (build_context entries max_length =
        String.join ((context_blocks entries).take
          (fit_count (context_blocks entries) 0 max_length))) ∧
      len_sum ((context_blocks entries).take
          (fit_count (context_blocks entries) 0 max_length)) ≤ max_length ∧
      (fit_count (context_blocks entries) 0 max_length = (context_blocks entries).length ∨
        max_length < len_sum ((context_blocks entries).take
          (fit_count (context_blocks entries) 0 max_length + 1))) ∧
      (build_context entries max_length).length ≤ max_length ∧
      build_context [] max_length = "" := by
  have hgo := build_context_go_eq max_length entries 1 0
  have hsum := fit_count_sum_le max_length (context_blocks entries) 0 (Nat.zero_le _)
  have hstop := fit_count_stop max_length (context_blocks entries) 0
  have heq : build_context entries max_length =
      String.join ((context_blocks entries).take
        (fit_count (context_blocks entries) 0 max_length)) := by
    unfold build_context context_blocks
    rw [hgo]
  refine ⟨heq, by omega, ?_, ?_, rfl⟩
  · rcases hstop with h | h
    · exact Or.inl h
    · exact Or.inr (by omega)
  · rw [heq, length_join]
    omega

/-- Witness for C6 on one concrete entry within a 4000-character budget. -/
theorem claim_C6_build_context_whole_blocks_witness :
    (∀ b ∈ context_blocks
        [(⟨"lion", "Lion", "Mammal", "Lions hunt in groups.", "Animals",
            0, 0, 0, 0⟩ : ScoredHit)], b.length ≤ 4000) ∧
      (build_context
          [(⟨"lion", "Lion", "Mammal", "Lions hunt in groups.", "Animals",
              0, 0, 0, 0⟩ : ScoredHit)] 4000).length ≤ 4000 :=
  ⟨by decide,
    (claim_C6_build_context_whole_blocks
        [(⟨"lion", "Lion", "Mammal", "Lions hunt in groups.", "Animals",
            0, 0, 0, 0⟩ : ScoredHit)] 4000 (by decide)).2.2.2.1⟩

/-! ### Claims about the Relational Expander traversal -/

theorem cypher_rows_depth_one (edges : List (String × String)) (used : List Nat)
    (cur : String) (len : Nat) :
    ∀ p ∈ cypher_path_rows edges used cur len 1, p.2 = len + 1 := by
  intro p hp
  unfold cypher_path_rows at hp
  obtain ⟨je, _, hpje⟩ := List.mem_flatMap.mp hp
  have h0 : cypher_path_rows edges (je.1 :: used) je.2.2 (len + 1) 0 = [] := rfl
  rw [h0] at hpje
  rcases List.mem_singleton.mp hpje with rfl
  rfl

/-- C8 is false as stated: on the graph with edges seed→A, A→B, seed→B at
depth 2, the query returns entity B twice — at distance 1 and at distance 2 —
because `RETURN DISTINCT` removes duplicate whole rows, not duplicate entity
ids, and the variable-length match yields one row per path rather than the
shortest distance per entity. -/
theorem claim_C8_counterexample :
    ((get_related_entries
          ⟨[("seed", "A"), ("A", "B"), ("seed", "B")],
            fun _ => "t", fun _ => "c", fun _ => "x", fun _ => "KB"⟩
          "seed" 2).map (fun h => (h.id, h.distance)) =
        [("A", 1), ("B", 1), ("B", 2)]) ∧
      ¬ (((get_related_entries
            ⟨[("seed", "A"), ("A", "B"), ("seed", "B")],
              fun _ => "t", fun _ => "c", fun _ => "x", fun _ => "KB"⟩
            "seed" 2).map (fun h => h.id)).Nodup) := by
  constructor
  · decide
  · decide

/-- C8 (amended): for every graph, seed and traversal depth (≥ 1 as in the
claim), the Relational Expander returns at most 5 rows sorted ascending by
distance; at depth 1 — the only depth the pipeline uses — the rows are
additionally distinct entities, each found at its (trivially shortest)
distance 1. At depth ≥ 2 the same entity may recur at several distances,
since `RETURN DISTINCT` dedupes whole rows rather than entity ids. -/
theorem claim_C8_expander_sorted_limited
    (g : GraphDB) (entry_id : String) (depth : Nat) (hdepth : 1 ≤ depth) :
    (get_related_entries g entry_id depth).length ≤ 5 ∧
      (get_related_entries g entry_id depth).Pairwise
        (fun a b => a.distance ≤ b.distance) ∧
      (depth = 1 →
          ((get_related_entries g entry_id depth).map (fun h => h.id)).Nodup ∧
            ∀ h ∈ get_related_entries g entry_id depth, h.distance = 1) := by
  refine ⟨List.length_take_le 5 _, ?_, ?_⟩
  · have hs :
        ((((cypher_path_rows g.edges [] entry_id 0 depth).map (rel_row g)).dedup).insertionSort
            byDistanceAsc).Pairwise byDistanceAsc :=
      List.sorted_insertionSort byDistanceAsc _
    exact hs.sublist (List.take_sublist 5 _)
  · rintro rfl
    have hrows : ∀ x ∈ ((cypher_path_rows g.edges [] entry_id 0 1).map (rel_row g)).dedup,
        x.distance = 1 := by
      intro x hx
      obtain ⟨p, hp, he⟩ := List.mem_map.mp (List.mem_dedup.mp hx)
      have hp2 := cypher_rows_depth_one g.edges [] entry_id 0 p hp
      rw [← he]
      simp [rel_row, hp2]
    have hnodup :
        ((((cypher_path_rows g.edges [] entry_id 0 1).map (rel_row g)).dedup).map
          (fun h => h.id)).Nodup := by
      apply List.Nodup.map_on ?_ (List.nodup_dedup _)
      intro x hx y hy hxy
      obtain ⟨p, hp, hep⟩ := List.mem_map.mp (List.mem_dedup.mp hx)
      obtain ⟨q, hq, heq⟩ := List.mem_map.mp (List.mem_dedup.mp hy)
      have hp2 := cypher_rows_depth_one g.edges [] entry_id 0 p hp
      have hq2 := cypher_rows_depth_one g.edges [] entry_id 0 q hq
      have h1 : p.1 = q.1 := by
        rw [← hep, ← heq] at hxy
        exact hxy
      have hpq : p = q := by
        obtain ⟨p1, p2⟩ := p
        obtain ⟨q1, q2⟩ := q
        simp only at h1 hp2 hq2
        rw [h1, hp2, hq2]
      rw [← hep, ← heq, hpq]
    constructor
    · have hperm :=
        (List.perm_insertionSort byDistanceAsc
            (((cypher_path_rows g.edges [] entry_id 0 1).map (rel_row g)).dedup)).map
          (fun h : RelHit => h.id)
      have hsorted := hperm.nodup_iff.mpr hnodup
      have htake : (get_related_entries g entry_id 1).map (fun h => h.id) =
          (((((cypher_path_rows g.edges [] entry_id 0 1).map (rel_row g)).dedup).insertionSort
              byDistanceAsc).map (fun h => h.id)).take 5 := by
        unfold get_related_entries
        rw [List.map_take]
      rw [htake]
      exact hsorted.sublist (List.take_sublist 5 _)
    · intro h hh
      have h1 : h ∈ (((cypher_path_rows g.edges [] entry_id 0 1).map
          (rel_row g)).dedup).insertionSort byDistanceAsc :=
        (List.take_sublist 5 _).subset hh
      have h2 := (List.perm_insertionSort byDistanceAsc _).mem_iff.mp h1
      exact hrows h h2

/-- Witness for C8 (amended) at depth 1 on a concrete graph. -/
theorem claim_C8_expander_sorted_limited_witness :
    1 ≤ 1 ∧
      ((get_related_entries
            ⟨[("seed", "A"), ("A", "B"), ("seed", "B")],
              fun _ => "t", fun _ => "c", fun _ => "x", fun _ => "KB"⟩
            "seed" 1).map (fun h => h.id)).Nodup :=
  ⟨le_refl 1,
    ((claim_C8_expander_sorted_limited
        ⟨[("seed", "A"), ("A", "B"), ("seed", "B")],
          fun _ => "t", fun _ => "c", fun _ => "x", fun _ => "KB"⟩
        "seed" 1 (le_refl 1)).2.2 rfl).1⟩

end GraphRAG









